import Mathlib

/-!
Verification development for the tsdotnet websocket-connector package.

The definitions below are a shallow embedding of the connector core in
src/dist/esm/WebSocketConnectorBase.js (the compiled module the claims
reference by line number), together with the transport-level behavior of
src/dist/esm/NodeWebSocketConnector.js where the base class delegates to
the subclass hooks.  rxjs Subject / BehaviorSubject are modelled by
explicit emission logs, and asynchronous effects (setTimeout
registrations, the result of the subclass connection hook) are made
explicit as data.
-/

namespace WSC

/-- The WebSocketState enum of src/dist/esm/interfaces.js. -/
inductive WebSocketState
  | Disconnected
  | Connecting
  | Connected
  | Reconnecting
  | Disconnecting
  | Disposing
  | Disposed
deriving DecidableEq, Repr

/-- rxjs Subject: a next call is ignored once the subject is stopped
(completed); complete stops it.  The log records the values delivered to
a from-the-start subscriber. -/
structure MSubject (α : Type) where
  log : List α
  stopped : Bool
deriving DecidableEq, Repr

def MSubject.next {α : Type} (s : MSubject α) (a : α) : MSubject α :=
  if s.stopped then s else { s with log := s.log ++ [a] }

def MSubject.complete {α : Type} (s : MSubject α) : MSubject α :=
  { s with stopped := true }

/-- rxjs BehaviorSubject: next always records the latest value (the
rxjs 7 implementation assigns the value field before delegating to
Subject.next), but the emission is delivered only while not stopped. -/
structure MBehavior (α : Type) where
  value : α
  log : List α
  stopped : Bool
deriving DecidableEq, Repr

def MBehavior.next {α : Type} (s : MBehavior α) (a : α) : MBehavior α :=
  if s.stopped then { s with value := a }
  else { value := a, log := s.log ++ [a], stopped := false }

def MBehavior.complete {α : Type} (s : MBehavior α) : MBehavior α :=
  { s with stopped := true }

/-- Lifecycle of the AsyncDisposableBase of the tsdotnet disposable
library: wasDisposed reports true from the moment disposal starts, and
assertIsAlive throws an ObjectDisposedException from that moment on. -/
inductive Lifecycle
  | alive
  | disposing
  | disposed
deriving DecidableEq, Repr

/-- Errors surfaced to callers.  objectDisposed is the
ObjectDisposedException raised by assertIsAlive (both on the connector
and on a virtual connection); failedToConnect is the
Error WebSocket failed to connect raised by the private send; transport
carries a transport-level failure payload. -/
inductive Err
  | objectDisposed
  | failedToConnect
  | transport (code : Nat)
deriving DecidableEq, Repr

/-- A VirtualWebSocketConnection handle: own message Subject, the
disposed flag of DisposableBase, and whether its subscription to the
connector message stream is still active. -/
structure VirtualConn where
  id : Nat
  disposed : Bool
  subscribed : Bool
  msg : MSubject Nat
deriving DecidableEq, Repr

/-- Options consumed by WebSocketConnectorBase (reconnectAttempts and
idleTimeoutMs; none models an absent property, resolved by the
nullish-coalescing defaults in the source). -/
structure WebSocketOptions where
  reconnectAttempts : Option Nat
  idleTimeoutMs : Option Nat
deriving DecidableEq, Repr

/-- The WebSocketConnectorBase instance state.  handles lists every
virtual connection ever created; a handle with disposed = false is
exactly a member of the internal _virtualConnections set (the set delete
happens inside the dispose callback).  idleTimer holds the pending
idle-teardown delay (at most one, as in the source).  transport records
whether a physical socket currently exists, gracefulCloses counts
transport-level graceful closes, sent logs data delivered to the
transport send hook. -/
structure Conn where
  options : WebSocketOptions
  stateS : MBehavior WebSocketState
  errorS : MSubject Err
  messageS : MSubject Nat
  handles : List VirtualConn
  idleTimer : Option Nat
  currentAttempt : Nat
  disconnecting : Bool
  transport : Bool
  gracefulCloses : Nat
  sent : List Nat
  lifecycle : Lifecycle
deriving DecidableEq, Repr

/-- activeVirtualConnections: the size of the live set. -/
def Conn.liveCount (c : Conn) : Nat :=
  (c.handles.filter (fun v => !v.disposed)).length

/-- _updateState: only updates while not in a disposal state. -/
def Conn.updateState (c : Conn) (st : WebSocketState) : Conn :=
  if c.stateS.value ≠ WebSocketState.Disposing ∧
     c.stateS.value ≠ WebSocketState.Disposed then
    { c with stateS := c.stateS.next st }
  else c

/-- _emitError: forwards to the error Subject. -/
def Conn.emitError (c : Conn) (e : Err) : Conn :=
  { c with errorS := c.errorS.next e }

/-- _emitMessage: forwards to the message Subject; each live
subscription delivers the value synchronously into the virtual
connection's own Subject (which itself drops it if stopped). -/
def Conn.emitMessage (c : Conn) (m : Nat) : Conn :=
  { c with
    messageS := c.messageS.next m,
    handles :=
      if c.messageS.stopped then c.handles
      else c.handles.map fun v =>
        if v.subscribed then { v with msg := v.msg.next m } else v }

/-- Completing the connector message Subject also completes the own
Subject of every still-subscribed virtual connection (the subscription
forwards complete). -/
def Conn.completeMessageS (c : Conn) : Conn :=
  { c with
    messageS := c.messageS.complete,
    handles :=
      if c.messageS.stopped then c.handles
      else c.handles.map fun v =>
        if v.subscribed then { v with msg := v.msg.complete } else v }

/-- targetState getter: true in Connecting, Reconnecting, Connected. -/
def Conn.targetState (c : Conn) : Bool :=
  match c.stateS.value with
  | WebSocketState.Connecting => true
  | WebSocketState.Reconnecting => true
  | WebSocketState.Connected => true
  | _ => false

/-- _cancelIdleDisconnect: clears the pending timer if any. -/
def Conn.cancelIdleDisconnect (c : Conn) : Conn :=
  { c with idleTimer := none }

/-- _scheduleIdleDisconnect: no timer unless targetState; otherwise
cancel any pending timer and arm one for idleTimeoutMs (default
10000). -/
def Conn.scheduleIdleDisconnect (c : Conn) : Conn :=
  if !c.targetState then c
  else
    { c.cancelIdleDisconnect with
        idleTimer := some (c.options.idleTimeoutMs.getD 10000) }

/-- Transport-level _ensureDisconnect of the Node connector: a graceful
close happens only when a physical socket exists. -/
def Conn.ensureDisconnect (c : Conn) : Conn :=
  if c.transport then
    { c with transport := false, gracefulCloses := c.gracefulCloses + 1 }
  else c

/-- _disconnect: joins an in-flight disconnect if one exists; otherwise
emits Disconnecting, runs the transport teardown, clears the in-flight
marker and emits Disconnected. -/
def Conn.disconnectSeq (c : Conn) : Conn :=
  if c.disconnecting then c
  else
    let c1 := { c with stateS := c.stateS.next WebSocketState.Disconnecting,
                       disconnecting := true }
    let c2 := c1.ensureDisconnect
    let c3 := { c2 with disconnecting := false }
    { c3 with stateS := c3.stateS.next WebSocketState.Disconnected }

/-- The idle timer callback: clears the timer handle, then tears the
transport down only if there is still no live virtual connection and
disposal has not begun. -/
def Conn.idleTimerFire (c : Conn) : Conn :=
  let c0 := { c with idleTimer := none }
  if c0.liveCount = 0 ∧ c0.lifecycle = Lifecycle.alive ∧
     c0.stateS.value ≠ WebSocketState.Disposing then
    c0.disconnectSeq
  else c0

/-- _handleConnectionFailure: emit the error first; then either move to
Reconnecting, bump the attempt counter and schedule a retry (the
returned delay), or move to Disconnected and reset the counter.  Note
the source writes the state subject directly, not through _updateState. -/
def Conn.handleConnectionFailure (c : Conn) (e : Err) : Conn × Option Nat :=
  let c0 := c.emitError e
  let maxAttempts := min (c0.options.reconnectAttempts.getD 0) 10
  if 0 < maxAttempts ∧ c0.currentAttempt < maxAttempts ∧ 0 < c0.liveCount then
    let c1 := { c0 with stateS := c0.stateS.next WebSocketState.Reconnecting,
                        currentAttempt := c0.currentAttempt + 1 }
    (c1, some (min (1000 * 2 ^ (c1.currentAttempt - 1)) 30000))
  else
    ({ c0 with stateS := c0.stateS.next WebSocketState.Disconnected,
               currentAttempt := 0 }, none)

/-- _connect: no-op when already Connected; otherwise (after awaiting a
pending disconnect, which the sequential model represents by the
theorems' disconnecting = false hypotheses) assert liveness, emit
Connecting, and run the subclass _ensureConnection hook whose outcome is
the ensure argument: a resulting state on success, a raised error on
failure (in which case Disconnected is emitted and the error
rethrown). -/
def Conn.connectSeq (c : Conn) (ensure : Except Err WebSocketState) :
    Conn × Option Err :=
  if c.stateS.value = WebSocketState.Connected then (c, none)
  else if c.lifecycle ≠ Lifecycle.alive then (c, some Err.objectDisposed)
  else
    let c1 := { c with stateS := c.stateS.next WebSocketState.Connecting }
    match ensure with
    | Except.ok st =>
        ({ c1 with stateS := c1.stateS.next st, transport := true }, none)
    | Except.error e =>
        ({ c1 with stateS := c1.stateS.next WebSocketState.Disconnected,
                   transport := false }, some e)

/-- The fresh VirtualWebSocketConnection made by connect. -/
def newVC (i : Nat) : VirtualConn :=
  { id := i, disposed := false, subscribed := true,
    msg := { log := [], stopped := false } }

/-- connect(): assertIsAlive, cancel the idle timer, run the connect
sequence when not Connected, then create and register a fresh virtual
connection and return it (here: its id). -/
def Conn.connect (c : Conn) (ensure : Except Err WebSocketState) (i : Nat) :
    Conn × Except Err Nat :=
  if c.lifecycle ≠ Lifecycle.alive then (c, Except.error Err.objectDisposed)
  else
    let c0 := c.cancelIdleDisconnect
    let r :=
      if c0.stateS.value ≠ WebSocketState.Connected then c0.connectSeq ensure
      else (c0, none)
    match r with
    | (c1, some e) => (c1, Except.error e)
    | (c1, none) =>
        ({ c1 with handles := c1.handles ++ [newVC i] }, Except.ok i)

/-- _send: assertIsAlive; connect first when not Connected; fail with
the failed-to-connect error when still not Connected; otherwise deliver
the data to the transport send hook. -/
def Conn.sendMsg (c : Conn) (ensure : Except Err WebSocketState) (data : Nat) :
    Conn × Option Err :=
  if c.lifecycle ≠ Lifecycle.alive then (c, some Err.objectDisposed)
  else
    let r :=
      if c.stateS.value ≠ WebSocketState.Connected then c.connectSeq ensure
      else (c, none)
    match r with
    | (c1, some e) => (c1, some e)
    | (c1, none) =>
        if c1.stateS.value ≠ WebSocketState.Connected then
          (c1, some Err.failedToConnect)
        else ({ c1 with sent := c1.sent ++ [data] }, none)

/-- VirtualWebSocketConnection.send: assertIsAlive on the handle, then
delegate to the connector send. -/
def Conn.vcSend (c : Conn) (v : VirtualConn) (ensure : Except Err WebSocketState)
    (data : Nat) : Conn × Option Err :=
  if v.disposed then (c, some Err.objectDisposed)
  else c.sendMsg ensure data

/-- Marking a handle disposed: unsubscribe, complete its own Subject,
set the DisposableBase flag (the set delete of the dispose callback). -/
def markDisposed (hs : List VirtualConn) (i : Nat) : List VirtualConn :=
  hs.map fun w =>
    if w.id = i then
      { w with disposed := true, subscribed := false, msg := w.msg.complete }
    else w

/-- VirtualWebSocketConnection.dispose: DisposableBase runs _onDispose
exactly once (further calls are no-ops); _onDispose unsubscribes,
completes the own message Subject and runs the callback, which deletes
the handle from the set and schedules idle teardown when the set becomes
empty. -/
def Conn.disposeVC (c : Conn) (i : Nat) : Conn :=
  match c.handles.find? (fun v => v.id = i) with
  | none => c
  | some v =>
      if v.disposed then c
      else
        let c1 := { c with handles := markDisposed c.handles i }
        if c1.liveCount = 0 then c1.scheduleIdleDisconnect else c1

/-- The disposal loop of _onDisposeAsync: dispose every handle that is
currently in the live set. -/
def Conn.disposeAll (c : Conn) : Conn :=
  (((c.handles.filter (fun v => !v.disposed)).map VirtualConn.id)).foldl
    Conn.disposeVC c

/-- disposeAsync: AsyncDisposableBase makes it idempotent and flips
wasDisposed before running _onDisposeAsync, which completes the message
and error subjects, awaits _disconnect, emits Disposing, disposes every
live handle, emits Disposed and completes the state subject. -/
def Conn.disposeAsync (c : Conn) : Conn :=
  if c.lifecycle ≠ Lifecycle.alive then c
  else
    let c1 := { c with lifecycle := Lifecycle.disposing }
    let c2 := c1.completeMessageS
    let c3 := { c2 with errorS := c2.errorS.complete }
    let c4 := c3.disconnectSeq
    let c5 := { c4 with stateS := c4.stateS.next WebSocketState.Disposing }
    let c6 := c5.disposeAll
    let c7 := { c6 with stateS := c6.stateS.next WebSocketState.Disposed }
    { c7 with stateS := c7.stateS.complete, lifecycle := Lifecycle.disposed }

/-- The retry callback scheduled by _handleConnectionFailure: if virtual
connections are still live and disposal has not begun, run the connect
sequence; success resets the attempt counter, failure recurses into the
failure handler. -/
def Conn.retryFire (c : Conn) (ensure : Except Err WebSocketState) :
    Conn × Option Nat :=
  if 0 < c.liveCount ∧ c.lifecycle = Lifecycle.alive then
    match c.connectSeq ensure with
    | (c1, none) => ({ c1 with currentAttempt := 0 }, none)
    | (c1, some e) => c1.handleConnectionFailure e
  else (c, none)

/-- Iterated failures, collecting the scheduled retry delays. -/
def Conn.failTimes (c : Conn) (e : Err) : Nat → Conn × List Nat
  | 0 => (c, [])
  | n + 1 =>
      let r := c.handleConnectionFailure e
      let rest := r.1.failTimes e n
      (rest.1, r.2.toList ++ rest.2)

/-!
Interleaving model for the concurrency claim.  Each connect() caller is
a thread; the atomic segments are the runs of synchronous code between
awaits of the single-threaded event loop.  The transport is the Node
connector: _ensureConnection returns Connected for an open socket,
Connecting for a connecting socket, and otherwise creates a socket
inside the same synchronous segment (the executor of _connectWebSocket
runs synchronously).  Disconnects are environment steps modelling
_disconnect callers; they are enabled only in the full relation
(env = true), while the fresh-connector scenario uses env = false.
-/

/-- Physical socket readyState as far as the model needs it. -/
inductive WsPhase
  | connectingW
  | openW
deriving DecidableEq, Repr

/-- Where a connect() thread currently is between atomic segments. -/
inductive CPhase
  | start
  | waitingDisc (d : Nat)
  | waitingWs
  | micro (st : WebSocketState)
  | bridge
  | done
deriving DecidableEq, Repr

/-- The shared state of the interleaving model: connector state value,
socket slot, count of sockets ever created, count of registered virtual
connections, the single-slot in-flight disconnect marker with its
bookkeeping, and the thread list. -/
structure Sys where
  stateVal : WebSocketState
  ws : Option WsPhase
  transports : Nat
  vcCount : Nat
  disc : Option Nat
  discNext : Nat
  discDone : List Nat
  discStarts : Nat
  threads : List CPhase
deriving DecidableEq, Repr

/-- A fresh connector with n pending connect() callers. -/
def Sys.init (n : Nat) : Sys :=
  { stateVal := WebSocketState.Disconnected, ws := none, transports := 0,
    vcCount := 0, disc := none, discNext := 0, discDone := [],
    discStarts := 0, threads := List.replicate n CPhase.start }

/-- Every caller has returned its virtual connection. -/
def Sys.allDone (s : Sys) : Prop :=
  ∀ p ∈ s.threads, p = CPhase.done

instance (s : Sys) : Decidable s.allDone := by
  unfold Sys.allDone; infer_instance

/-- The resolution of the socket-open event on a suspended thread: the
creator waiting on the _connectWebSocket promise is resolved with
Connected; every other phase is untouched. -/
def resolveOpen : CPhase → CPhase
  | CPhase.waitingWs => CPhase.micro WebSocketState.Connected
  | p => p

/-- One atomic segment of the event loop.  The env flag enables the
environment-driven _disconnect steps. -/
inductive Step (env : Bool) : Sys → Sys → Prop
  /-- connect() entry while already Connected: the virtual connection is
  created in the same synchronous segment. -/
  | startConnected (s : Sys) (pre post : List CPhase)
      (hth : s.threads = pre ++ CPhase.start :: post)
      (hs : s.stateVal = WebSocketState.Connected) :
      Step env s { s with vcCount := s.vcCount + 1,
                          threads := pre ++ CPhase.done :: post }
  /-- connect() entry, not Connected, a disconnect is in flight: _connect
  awaits the in-flight promise. -/
  | startWait (s : Sys) (pre post : List CPhase) (d : Nat)
      (hth : s.threads = pre ++ CPhase.start :: post)
      (hs : s.stateVal ≠ WebSocketState.Connected)
      (hd : s.disc = some d) :
      Step env s { s with threads := pre ++ CPhase.waitingDisc d :: post }
  /-- connect() entry, not Connected, no disconnect, socket open:
  Connecting is emitted and _ensureConnection resolves Connected. -/
  | startOpen (s : Sys) (pre post : List CPhase)
      (hth : s.threads = pre ++ CPhase.start :: post)
      (hs : s.stateVal ≠ WebSocketState.Connected)
      (hd : s.disc = none) (hw : s.ws = some WsPhase.openW) :
      Step env s { s with stateVal := WebSocketState.Connecting,
                          threads :=
                            pre ++ CPhase.micro WebSocketState.Connected :: post }
  /-- connect() entry, socket already connecting: _ensureConnection
  resolves Connecting without creating a second socket. -/
  | startConnecting (s : Sys) (pre post : List CPhase)
      (hth : s.threads = pre ++ CPhase.start :: post)
      (hs : s.stateVal ≠ WebSocketState.Connected)
      (hd : s.disc = none) (hw : s.ws = some WsPhase.connectingW) :
      Step env s { s with stateVal := WebSocketState.Connecting,
                          threads :=
                            pre ++ CPhase.micro WebSocketState.Connecting :: post }
  /-- connect() entry with no socket: a socket is created in the same
  synchronous segment and the thread awaits its open event. -/
  | startCreate (s : Sys) (pre post : List CPhase)
      (hth : s.threads = pre ++ CPhase.start :: post)
      (hs : s.stateVal ≠ WebSocketState.Connected)
      (hd : s.disc = none) (hw : s.ws = none) :
      Step env s { s with stateVal := WebSocketState.Connecting,
                          ws := some WsPhase.connectingW,
                          transports := s.transports + 1,
                          threads := pre ++ CPhase.waitingWs :: post }
  /-- Resumption after the awaited disconnect resolved, socket open (the
  Connected check of _connect happened before the await and is not
  repeated). -/
  | resumeDiscOpen (s : Sys) (pre post : List CPhase) (d : Nat)
      (hth : s.threads = pre ++ CPhase.waitingDisc d :: post)
      (hres : d ∈ s.discDone) (hw : s.ws = some WsPhase.openW) :
      Step env s { s with stateVal := WebSocketState.Connecting,
                          threads :=
                            pre ++ CPhase.micro WebSocketState.Connected :: post }
  /-- Resumption after the awaited disconnect resolved, socket
  connecting. -/
  | resumeDiscConnecting (s : Sys) (pre post : List CPhase) (d : Nat)
      (hth : s.threads = pre ++ CPhase.waitingDisc d :: post)
      (hres : d ∈ s.discDone) (hw : s.ws = some WsPhase.connectingW) :
      Step env s { s with stateVal := WebSocketState.Connecting,
                          threads :=
                            pre ++ CPhase.micro WebSocketState.Connecting :: post }
  /-- Resumption after the awaited disconnect resolved, no socket: a new
  socket is created. -/
  | resumeDiscCreate (s : Sys) (pre post : List CPhase) (d : Nat)
      (hth : s.threads = pre ++ CPhase.waitingDisc d :: post)
      (hres : d ∈ s.discDone) (hw : s.ws = none) :
      Step env s { s with stateVal := WebSocketState.Connecting,
                          ws := some WsPhase.connectingW,
                          transports := s.transports + 1,
                          threads := pre ++ CPhase.waitingWs :: post }
  /-- The socket open event: _updateState(Connected) (guarded) and the
  resolution of the creator's pending _connectWebSocket promise. -/
  | wsOpen (s : Sys) (hw : s.ws = some WsPhase.connectingW) :
      Step env s { s with ws := some WsPhase.openW,
                          stateVal :=
                            if s.stateVal ≠ WebSocketState.Disposing ∧
                               s.stateVal ≠ WebSocketState.Disposed then
                              WebSocketState.Connected
                            else s.stateVal,
                          threads := s.threads.map resolveOpen }
  /-- A thread whose _ensureConnection promise already resolved resumes:
  _connect writes the resolved state to the subject and returns. -/
  | resumeMicro (s : Sys) (pre post : List CPhase) (st : WebSocketState)
      (hth : s.threads = pre ++ CPhase.micro st :: post) :
      Step env s { s with stateVal := st,
                          threads := pre ++ CPhase.bridge :: post }
  /-- connect() resumes after _connect resolved and registers the new
  virtual connection. -/
  | runBridge (s : Sys) (pre post : List CPhase)
      (hth : s.threads = pre ++ CPhase.bridge :: post) :
      Step env s { s with vcCount := s.vcCount + 1,
                          threads := pre ++ CPhase.done :: post }
  /-- Environment: _disconnect invoked while no disconnect is in flight
  (a caller finding one in flight joins it and changes nothing). -/
  | discStart (s : Sys) (he : env = true) (hd : s.disc = none) :
      Step env s { s with stateVal := WebSocketState.Disconnecting,
                          disc := some s.discNext,
                          discNext := s.discNext + 1,
                          discStarts := s.discStarts + 1 }
  /-- Environment: the in-flight disconnect completes; the socket is
  gone, the single slot is cleared and Disconnected is emitted. -/
  | discFinish (s : Sys) (d : Nat) (he : env = true) (hd : s.disc = some d) :
      Step env s { s with stateVal := WebSocketState.Disconnected,
                          ws := none, disc := none,
                          discDone := d :: s.discDone }

/-- Executions of the event loop. -/
def Reach (env : Bool) : Sys → Sys → Prop :=
  Relation.ReflTransGen (Step env)

/-! ## Concrete connectors used to instantiate the theorems -/

/-- A healthy connected connector with one live handle and a retry
budget of ten. -/
def baseConn : Conn :=
  { options := { reconnectAttempts := some 10, idleTimeoutMs := none },
    stateS := { value := WebSocketState.Connected,
                log := [WebSocketState.Disconnected, WebSocketState.Connecting,
                        WebSocketState.Connected],
                stopped := false },
    errorS := { log := [], stopped := false },
    messageS := { log := [], stopped := false },
    handles := [newVC 0],
    idleTimer := none, currentAttempt := 0, disconnecting := false,
    transport := true, gracefulCloses := 0, sent := [],
    lifecycle := Lifecycle.alive }

/-! ## Claims -/

/-- C1: an out-of-band failure handled by _handleConnectionFailure is
emitted on the error stream first; with maxAttempts the capped retry
budget, when the budget, the attempt counter and the live count allow
it, the state becomes Reconnecting, the counter is incremented and a
retry is scheduled after exactly min(1000 * 2^(attempt-1), 30000) ms
(whence the 1000, 2000, 4000, 8000, 16000, 30000 sequence); otherwise
the state becomes Disconnected and the counter resets; a successful
retried connect resets the counter to zero. -/
theorem c1_failure_backoff (c : Conn) (e : Err)
    (herr : c.errorS.stopped = false) (hst : c.stateS.stopped = false) :
    ((c.handleConnectionFailure e).1.errorS.log = c.errorS.log ++ [e])
    ∧ (0 < min (c.options.reconnectAttempts.getD 0) 10 →
        c.currentAttempt < min (c.options.reconnectAttempts.getD 0) 10 →
        0 < c.liveCount →
        (c.handleConnectionFailure e).1.stateS.value = WebSocketState.Reconnecting
        ∧ (c.handleConnectionFailure e).1.stateS.log =
            c.stateS.log ++ [WebSocketState.Reconnecting]
        ∧ (c.handleConnectionFailure e).1.currentAttempt = c.currentAttempt + 1
        ∧ (c.handleConnectionFailure e).2 =
            some (min (1000 * 2 ^ c.currentAttempt) 30000))
    ∧ (¬(0 < min (c.options.reconnectAttempts.getD 0) 10 ∧
          c.currentAttempt < min (c.options.reconnectAttempts.getD 0) 10 ∧
          0 < c.liveCount) →
        (c.handleConnectionFailure e).1.stateS.value = WebSocketState.Disconnected
        ∧ (c.handleConnectionFailure e).1.currentAttempt = 0
        ∧ (c.handleConnectionFailure e).2 = none)
    ∧ ((baseConn.failTimes (Err.transport 0) 6).2 =
        [1000, 2000, 4000, 8000, 16000, 30000])
    ∧ (∀ st, 0 < c.liveCount → c.lifecycle = Lifecycle.alive →
        (c.retryFire (Except.ok st)).1.currentAttempt = 0) := by
  obtain ⟨opts, stS, errS, msgS, hnds, idle, att, dc, tr, gc, snt, lc⟩ := c
  obtain ⟨elog, estop⟩ := errS
  obtain ⟨sval, slog, sstop⟩ := stS
  simp only at herr hst
  subst herr hst
  refine ⟨?_, ?_, ?_, by decide, ?_⟩
  · simp only [Conn.handleConnectionFailure, Conn.emitError, MSubject.next,
      MBehavior.next, Bool.false_eq_true, if_false]
    split <;> rfl
  · intro h1 h2 h3
    simp only [Conn.liveCount] at h3
    simp [Conn.handleConnectionFailure, Conn.emitError, MSubject.next,
      MBehavior.next, Conn.liveCount, h1, h2, h3]
  · intro h
    simp only [Conn.liveCount] at h
    simp only [Conn.handleConnectionFailure, Conn.emitError, MSubject.next,
      MBehavior.next, Conn.liveCount, Bool.false_eq_true, if_false]
    rw [if_neg (by simpa using h)]
    simp
  · intro st h1 h2
    simp only [Conn.liveCount] at h1
    simp only at h2
    subst h2
    simp only [Conn.retryFire, Conn.liveCount]
    rw [if_pos ⟨h1, trivial⟩]
    split
    case h_1 => simp
    case h_2 c1 e heq =>
      exfalso
      simp only [Conn.connectSeq] at heq
      split at heq <;> simp_all

/-- Witness for C1 at a concrete connector: the hypotheses hold and the
failure takes the Reconnecting branch. -/
theorem c1_failure_backoff_witness :
    baseConn.errorS.stopped = false ∧ baseConn.stateS.stopped = false ∧
    (baseConn.handleConnectionFailure (Err.transport 1)).1.stateS.value =
      WebSocketState.Reconnecting :=
  ⟨rfl, rfl,
    ((c1_failure_backoff baseConn (Err.transport 1) rfl rfl).2.1
      (by decide) (by decide) (by decide)).1⟩

/-! ## Invariants of the interleaving model -/

/-- A thread that has passed its entry segment (and so has witnessed or
created the socket). -/
def pastStart : CPhase → Prop
  | CPhase.start => False
  | CPhase.waitingDisc _ => False
  | _ => True

lemma pastStart_resolveOpen {p : CPhase} (h : pastStart p) :
    pastStart (resolveOpen p) := by
  cases p <;> simp_all [pastStart, resolveOpen]

lemma resolveOpen_waitingDisc (p : CPhase) (d : Nat) :
    resolveOpen p = CPhase.waitingDisc d ↔ p = CPhase.waitingDisc d := by
  cases p <;> simp [resolveOpen]

lemma count_done_resolveOpen (l : List CPhase) :
    (l.map resolveOpen).count CPhase.done = l.count CPhase.done := by
  induction l with
  | nil => rfl
  | cons p t ih => cases p <;> simp [resolveOpen, List.count_cons, ih]

/-- Inductive invariant of the fresh-connector connect-only runs. -/
structure InvC (n : Nat) (s : Sys) : Prop where
  len : s.threads.length = n
  vc : s.vcCount = s.threads.count CPhase.done
  tr_le : s.transports ≤ 1
  ws_tr : s.ws = none ↔ s.transports = 0
  st_tr : s.stateVal ≠ WebSocketState.Disconnected → s.transports = 1
  past : ∀ p ∈ s.threads, pastStart p → s.transports = 1
  hdisc : s.disc = none
  nowait : ∀ p ∈ s.threads, ∀ d, p ≠ CPhase.waitingDisc d
  trw : s.transports = 0 ∨ ∃ p ∈ s.threads, pastStart p

lemma invC_init (n : Nat) : InvC n (Sys.init n) := by
  refine ⟨?_, ?_, ?_, ?_, ?_, ?_, ?_, ?_, ?_⟩
  · simp [Sys.init]
  · simp [Sys.init, List.count_replicate]
  · exact Nat.zero_le 1
  · simp [Sys.init]
  · intro h
    exact absurd rfl h
  · intro p hp hps
    rw [List.eq_of_mem_replicate hp] at hps
    exact hps.elim
  · rfl
  · intro p hp d
    rw [List.eq_of_mem_replicate hp]
    simp
  · exact Or.inl rfl

lemma mem_seg_mid (pre post : List CPhase) (p : CPhase) : p ∈ pre ++ p :: post := by
  simp

lemma mem_seg_of_side {pre post : List CPhase} {q : CPhase} (p : CPhase)
    (h : q ∈ pre ∨ q ∈ post) : q ∈ pre ++ p :: post := by
  rcases h with h | h <;> simp [h]

lemma mem_seg_cases {pre post : List CPhase} {p q : CPhase}
    (h : q ∈ pre ++ p :: post) : q ∈ pre ∨ q = p ∨ q ∈ post := by
  simp only [List.mem_append, List.mem_cons] at h
  tauto

lemma count_seg (pre post : List CPhase) (p a : CPhase) :
    (pre ++ p :: post).count a =
      pre.count a + (post.count a + if p = a then 1 else 0) := by
  simp [List.count_append, List.count_cons]

lemma invC_step {n : Nat} {s s' : Sys} (inv : InvC n s) (h : Step false s s') :
    InvC n s' := by
  obtain ⟨len, vc, tr_le, ws_tr, st_tr, past, hdisc, nowait, trw⟩ := inv
  cases h with
  | startConnected pre post hth hs =>
      have htr : s.transports = 1 := st_tr (by rw [hs]; simp)
      refine ⟨?_, ?_, ?_, ?_, ?_, ?_, ?_, ?_, ?_⟩
      · rw [hth] at len; simpa using len
      · show s.vcCount + 1 = _
        rw [vc, hth, count_seg, count_seg]
        simp
        omega
      · exact tr_le
      · exact ws_tr
      · exact st_tr
      · exact fun p _ _ => htr
      · exact hdisc
      · intro q hq d
        rcases mem_seg_cases hq with hq | hq | hq
        · exact nowait q (by rw [hth]; exact mem_seg_of_side _ (Or.inl hq)) d
        · subst hq; simp
        · exact nowait q (by rw [hth]; exact mem_seg_of_side _ (Or.inr hq)) d
      · exact Or.inr ⟨CPhase.done, mem_seg_mid pre post _, trivial⟩
  | startWait pre post d hth hs hd =>
      rw [hdisc] at hd; exact Option.noConfusion hd
  | startOpen pre post hth hs hd hw =>
      have htr : s.transports = 1 := by
        have h0 : s.transports ≠ 0 := fun h0 => by
          rw [ws_tr.mpr h0] at hw; exact Option.noConfusion hw
        omega
      refine ⟨?_, ?_, ?_, ?_, ?_, ?_, ?_, ?_, ?_⟩
      · rw [hth] at len; simpa using len
      · show s.vcCount = _
        rw [vc, hth, count_seg, count_seg]
        simp
      · exact tr_le
      · exact ws_tr
      · exact fun _ => htr
      · exact fun p _ _ => htr
      · exact hdisc
      · intro q hq d
        rcases mem_seg_cases hq with hq | hq | hq
        · exact nowait q (by rw [hth]; exact mem_seg_of_side _ (Or.inl hq)) d
        · subst hq; simp
        · exact nowait q (by rw [hth]; exact mem_seg_of_side _ (Or.inr hq)) d
      · exact Or.inr ⟨CPhase.micro WebSocketState.Connected,
          mem_seg_mid pre post _, trivial⟩
  | startConnecting pre post hth hs hd hw =>
      have htr : s.transports = 1 := by
        have h0 : s.transports ≠ 0 := fun h0 => by
          rw [ws_tr.mpr h0] at hw; exact Option.noConfusion hw
        omega
      refine ⟨?_, ?_, ?_, ?_, ?_, ?_, ?_, ?_, ?_⟩
      · rw [hth] at len; simpa using len
      · show s.vcCount = _
        rw [vc, hth, count_seg, count_seg]
        simp
      · exact tr_le
      · exact ws_tr
      · exact fun _ => htr
      · exact fun p _ _ => htr
      · exact hdisc
      · intro q hq d
        rcases mem_seg_cases hq with hq | hq | hq
        · exact nowait q (by rw [hth]; exact mem_seg_of_side _ (Or.inl hq)) d
        · subst hq; simp
        · exact nowait q (by rw [hth]; exact mem_seg_of_side _ (Or.inr hq)) d
      · exact Or.inr ⟨CPhase.micro WebSocketState.Connecting,
          mem_seg_mid pre post _, trivial⟩
  | startCreate pre post hth hs hd hw =>
      have htr0 : s.transports = 0 := ws_tr.mp hw
      refine ⟨?_, ?_, ?_, ?_, ?_, ?_, ?_, ?_, ?_⟩
      · rw [hth] at len; simpa using len
      · show s.vcCount = _
        rw [vc, hth, count_seg, count_seg]
        simp
      · show s.transports + 1 ≤ 1
        omega
      · show (some WsPhase.connectingW = none) ↔ s.transports + 1 = 0
        simp
      · intro _
        show s.transports + 1 = 1
        omega
      · intro p _ _
        show s.transports + 1 = 1
        omega
      · exact hdisc
      · intro q hq d
        rcases mem_seg_cases hq with hq | hq | hq
        · exact nowait q (by rw [hth]; exact mem_seg_of_side _ (Or.inl hq)) d
        · subst hq; simp
        · exact nowait q (by rw [hth]; exact mem_seg_of_side _ (Or.inr hq)) d
      · exact Or.inr ⟨CPhase.waitingWs, mem_seg_mid pre post _, trivial⟩
  | resumeDiscOpen pre post d hth hres hw =>
      exact absurd rfl
        (nowait (CPhase.waitingDisc d) (by rw [hth]; exact mem_seg_mid pre post _) d)
  | resumeDiscConnecting pre post d hth hres hw =>
      exact absurd rfl
        (nowait (CPhase.waitingDisc d) (by rw [hth]; exact mem_seg_mid pre post _) d)
  | resumeDiscCreate pre post d hth hres hw =>
      exact absurd rfl
        (nowait (CPhase.waitingDisc d) (by rw [hth]; exact mem_seg_mid pre post _) d)
  | wsOpen hw =>
      have htr : s.transports = 1 := by
        have h0 : s.transports ≠ 0 := fun h0 => by
          rw [ws_tr.mpr h0] at hw; exact Option.noConfusion hw
        omega
      refine ⟨?_, ?_, ?_, ?_, ?_, ?_, ?_, ?_, ?_⟩
      · simpa using len
      · show s.vcCount = _
        rw [vc, count_done_resolveOpen]
      · exact tr_le
      · show (some WsPhase.openW = none) ↔ s.transports = 0
        constructor
        · intro hn; exact Option.noConfusion hn
        · intro h0
          rw [ws_tr.mpr h0] at hw
          exact Option.noConfusion hw
      · exact fun _ => htr
      · exact fun p _ _ => htr
      · exact hdisc
      · intro q hq d
        rcases List.mem_map.mp hq with ⟨p0, hp0, hmap⟩
        intro hqe
        rw [hqe, resolveOpen_waitingDisc] at hmap
        exact nowait p0 hp0 d hmap
      · refine Or.inr ?_
        rcases trw with h0 | ⟨p, hp, hps⟩
        · omega
        · exact ⟨resolveOpen p, List.mem_map_of_mem resolveOpen hp,
            pastStart_resolveOpen hps⟩
  | resumeMicro pre post st hth =>
      have htr : s.transports = 1 :=
        past (CPhase.micro st) (by rw [hth]; exact mem_seg_mid pre post _) trivial
      refine ⟨?_, ?_, ?_, ?_, ?_, ?_, ?_, ?_, ?_⟩
      · rw [hth] at len; simpa using len
      · show s.vcCount = _
        rw [vc, hth, count_seg, count_seg]
        simp
      · exact tr_le
      · exact ws_tr
      · exact fun _ => htr
      · exact fun p _ _ => htr
      · exact hdisc
      · intro q hq d
        rcases mem_seg_cases hq with hq | hq | hq
        · exact nowait q (by rw [hth]; exact mem_seg_of_side _ (Or.inl hq)) d
        · subst hq; simp
        · exact nowait q (by rw [hth]; exact mem_seg_of_side _ (Or.inr hq)) d
      · exact Or.inr ⟨CPhase.bridge, mem_seg_mid pre post _, trivial⟩
  | runBridge pre post hth =>
      have htr : s.transports = 1 :=
        past CPhase.bridge (by rw [hth]; exact mem_seg_mid pre post _) trivial
      refine ⟨?_, ?_, ?_, ?_, ?_, ?_, ?_, ?_, ?_⟩
      · rw [hth] at len; simpa using len
      · show s.vcCount + 1 = _
        rw [vc, hth, count_seg, count_seg]
        simp
        omega
      · exact tr_le
      · exact ws_tr
      · exact st_tr
      · exact fun p _ _ => htr
      · exact hdisc
      · intro q hq d
        rcases mem_seg_cases hq with hq | hq | hq
        · exact nowait q (by rw [hth]; exact mem_seg_of_side _ (Or.inl hq)) d
        · subst hq; simp
        · exact nowait q (by rw [hth]; exact mem_seg_of_side _ (Or.inr hq)) d
      · exact Or.inr ⟨CPhase.done, mem_seg_mid pre post _, trivial⟩
  | discStart he hd => exact Bool.noConfusion he
  | discFinish d he hd => exact Bool.noConfusion he

lemma invC_reach {n : Nat} {s : Sys} (h : Reach false (Sys.init n) s) :
    InvC n s := by
  induction h with
  | refl => exact invC_init n
  | tail _ hstep ih => exact invC_step ih hstep

lemma allDone_count {s : Sys} (h : s.allDone) :
    s.threads.count CPhase.done = s.threads.length := by
  rw [List.count_eq_length]
  intro b hb
  rw [h b hb]

/-- Inductive invariant for the full relation: the single-slot
disconnect marker pairs every started teardown with at most one
unresolved slot. -/
structure InvD (s : Sys) : Prop where
  bound : ∀ d ∈ s.discDone, d < s.discNext
  cur : ∀ d, s.disc = some d → d < s.discNext ∧ d ∉ s.discDone
  starts : s.discStarts = s.discDone.length + (if s.disc = none then 0 else 1)

lemma invD_init (n : Nat) : InvD (Sys.init n) := by
  refine ⟨?_, ?_, ?_⟩ <;> simp [Sys.init]

lemma invD_step {s s' : Sys} (inv : InvD s) (h : Step true s s') : InvD s' := by
  obtain ⟨bound, cur, starts⟩ := inv
  cases h with
  | startConnected pre post hth hs => exact ⟨bound, cur, starts⟩
  | startWait pre post d hth hs hd => exact ⟨bound, cur, starts⟩
  | startOpen pre post hth hs hd hw => exact ⟨bound, cur, starts⟩
  | startConnecting pre post hth hs hd hw => exact ⟨bound, cur, starts⟩
  | startCreate pre post hth hs hd hw => exact ⟨bound, cur, starts⟩
  | resumeDiscOpen pre post d hth hres hw => exact ⟨bound, cur, starts⟩
  | resumeDiscConnecting pre post d hth hres hw => exact ⟨bound, cur, starts⟩
  | resumeDiscCreate pre post d hth hres hw => exact ⟨bound, cur, starts⟩
  | wsOpen hw => exact ⟨bound, cur, starts⟩
  | resumeMicro pre post st hth => exact ⟨bound, cur, starts⟩
  | runBridge pre post hth => exact ⟨bound, cur, starts⟩
  | discStart he hd =>
      refine ⟨?_, ?_, ?_⟩
      · exact fun d hdd => Nat.lt_succ_of_lt (bound d hdd)
      · intro d hdd
        injection hdd with hde
        subst hde
        exact ⟨Nat.lt_succ_self _, fun hmem => Nat.lt_irrefl _ (bound _ hmem)⟩
      · rw [hd] at starts
        simp at starts
        simp [starts]
  | discFinish d he hd =>
      refine ⟨?_, ?_, ?_⟩
      · intro d2 hd2
        rcases List.mem_cons.mp hd2 with hd2 | hd2
        · rw [hd2]; exact (cur d hd).1
        · exact bound d2 hd2
      · intro d2 hd2
        exact Option.noConfusion hd2
      · rw [hd] at starts
        simp at starts
        simp [starts]

lemma invD_reach {n : Nat} {s : Sys} (h : Reach true (Sys.init n) s) :
    InvD s := by
  induction h with
  | refl => exact invD_init n
  | tail _ hstep ih => exact invD_step ih hstep

lemma seg_get_ne (pre post : List CPhase) (p p' : CPhase) (i : Nat)
    (hne : i ≠ pre.length) :
    (pre ++ p :: post)[i]? = (pre ++ p' :: post)[i]? := by
  rcases Nat.lt_or_ge i pre.length with h | h
  · rw [List.getElem?_append_left h, List.getElem?_append_left h]
  · have h3 : 0 < i - pre.length := by omega
    rw [List.getElem?_append_right h, List.getElem?_append_right h]
    obtain ⟨k, hk⟩ : ∃ k, i - pre.length = k + 1 := ⟨i - pre.length - 1, by omega⟩
    rw [hk]
    simp

lemma seg_get_mid (pre post : List CPhase) (p : CPhase) :
    (pre ++ p :: post)[pre.length]? = some p := by
  rw [List.getElem?_append_right (Nat.le_refl _)]
  simp

/-- A thread suspended on an in-flight disconnect can only leave that
suspension once the disconnect it observed has resolved. -/
lemma step_waitingDisc_resolved {s s' : Sys} (h : Step true s s') (i d : Nat)
    (h1 : s.threads[i]? = some (CPhase.waitingDisc d))
    (h2 : s'.threads[i]? ≠ some (CPhase.waitingDisc d)) : d ∈ s.discDone := by
  cases h with
  | startConnected pre post hth hs =>
      by_cases hi : i = pre.length
      · rw [hth, hi, seg_get_mid] at h1
        exact absurd h1 (by simp)
      · exfalso
        apply h2
        rw [hth] at h1
        show (pre ++ CPhase.done :: post)[i]? = some (CPhase.waitingDisc d)
        rw [seg_get_ne pre post CPhase.done CPhase.start i hi]
        exact h1
  | startWait pre post d2 hth hs hd =>
      by_cases hi : i = pre.length
      · rw [hth, hi, seg_get_mid] at h1
        exact absurd h1 (by simp)
      · exfalso
        apply h2
        rw [hth] at h1
        show (pre ++ CPhase.waitingDisc d2 :: post)[i]? = some (CPhase.waitingDisc d)
        rw [seg_get_ne pre post (CPhase.waitingDisc d2) CPhase.start i hi]
        exact h1
  | startOpen pre post hth hs hd hw =>
      by_cases hi : i = pre.length
      · rw [hth, hi, seg_get_mid] at h1
        exact absurd h1 (by simp)
      · exfalso
        apply h2
        rw [hth] at h1
        show (pre ++ CPhase.micro WebSocketState.Connected :: post)[i]? =
          some (CPhase.waitingDisc d)
        rw [seg_get_ne pre post (CPhase.micro WebSocketState.Connected)
          CPhase.start i hi]
        exact h1
  | startConnecting pre post hth hs hd hw =>
      by_cases hi : i = pre.length
      · rw [hth, hi, seg_get_mid] at h1
        exact absurd h1 (by simp)
      · exfalso
        apply h2
        rw [hth] at h1
        show (pre ++ CPhase.micro WebSocketState.Connecting :: post)[i]? =
          some (CPhase.waitingDisc d)
        rw [seg_get_ne pre post (CPhase.micro WebSocketState.Connecting)
          CPhase.start i hi]
        exact h1
  | startCreate pre post hth hs hd hw =>
      by_cases hi : i = pre.length
      · rw [hth, hi, seg_get_mid] at h1
        exact absurd h1 (by simp)
      · exfalso
        apply h2
        rw [hth] at h1
        show (pre ++ CPhase.waitingWs :: post)[i]? = some (CPhase.waitingDisc d)
        rw [seg_get_ne pre post CPhase.waitingWs CPhase.start i hi]
        exact h1
  | resumeDiscOpen pre post d2 hth hres hw =>
      by_cases hi : i = pre.length
      · rw [hth, hi, seg_get_mid] at h1
        simp at h1
        rw [← h1]
        exact hres
      · exfalso
        apply h2
        rw [hth] at h1
        show (pre ++ CPhase.micro WebSocketState.Connected :: post)[i]? =
          some (CPhase.waitingDisc d)
        rw [seg_get_ne pre post (CPhase.micro WebSocketState.Connected)
          (CPhase.waitingDisc d2) i hi]
        exact h1
  | resumeDiscConnecting pre post d2 hth hres hw =>
      by_cases hi : i = pre.length
      · rw [hth, hi, seg_get_mid] at h1
        simp at h1
        rw [← h1]
        exact hres
      · exfalso
        apply h2
        rw [hth] at h1
        show (pre ++ CPhase.micro WebSocketState.Connecting :: post)[i]? =
          some (CPhase.waitingDisc d)
        rw [seg_get_ne pre post (CPhase.micro WebSocketState.Connecting)
          (CPhase.waitingDisc d2) i hi]
        exact h1
  | resumeDiscCreate pre post d2 hth hres hw =>
      by_cases hi : i = pre.length
      · rw [hth, hi, seg_get_mid] at h1
        simp at h1
        rw [← h1]
        exact hres
      · exfalso
        apply h2
        rw [hth] at h1
        show (pre ++ CPhase.waitingWs :: post)[i]? = some (CPhase.waitingDisc d)
        rw [seg_get_ne pre post CPhase.waitingWs (CPhase.waitingDisc d2) i hi]
        exact h1
  | wsOpen hw =>
      exfalso
      apply h2
      show (s.threads.map resolveOpen)[i]? = some (CPhase.waitingDisc d)
      rw [List.getElem?_map, h1]
      rfl
  | resumeMicro pre post st hth =>
      by_cases hi : i = pre.length
      · rw [hth, hi, seg_get_mid] at h1
        exact absurd h1 (by simp)
      · exfalso
        apply h2
        rw [hth] at h1
        show (pre ++ CPhase.bridge :: post)[i]? = some (CPhase.waitingDisc d)
        rw [seg_get_ne pre post CPhase.bridge (CPhase.micro st) i hi]
        exact h1
  | runBridge pre post hth =>
      by_cases hi : i = pre.length
      · rw [hth, hi, seg_get_mid] at h1
        exact absurd h1 (by simp)
      · exfalso
        apply h2
        rw [hth] at h1
        show (pre ++ CPhase.done :: post)[i]? = some (CPhase.waitingDisc d)
        rw [seg_get_ne pre post CPhase.done CPhase.bridge i hi]
        exact h1
  | discStart he hd => exact absurd h1 h2
  | discFinish d2 he hd => exact absurd h1 h2

/-- C2 (amended): on a fresh connector, throughout every interleaving of
concurrent connect() calls at most one transport connect attempt is ever
begun; when all callers finish, with at least one caller exactly one
Transport was created and the virtual connection count equals the number
of callers, while zero callers create no Transport; at most one
disconnect is in flight at a time (each started teardown occupies the
single slot until resolved); and a connect request suspended on an
in-flight disconnect resumes only after that disconnect resolved. -/
theorem c2_connect_interleavings :
    (∀ n s, Reach false (Sys.init n) s → s.transports ≤ 1)
    ∧ (∀ n s, Reach false (Sys.init n) s → s.allDone → 1 ≤ n →
        s.transports = 1 ∧ s.vcCount = n)
    ∧ (∀ s, Reach false (Sys.init 0) s → s.transports = 0 ∧ s.vcCount = 0)
    ∧ (∀ n s, Reach true (Sys.init n) s →
        s.discStarts ≤ s.discDone.length + 1)
    ∧ (∀ (t t2 : Sys), Step true t t2 → ∀ (i d : Nat),
        t.threads[i]? = some (CPhase.waitingDisc d) →
        t2.threads[i]? ≠ some (CPhase.waitingDisc d) → d ∈ t.discDone) := by
  refine ⟨?_, ?_, ?_, ?_, ?_⟩
  · intro n s hr
    exact (invC_reach hr).tr_le
  · intro n s hr hdone hn
    obtain ⟨len, vc, tr_le, ws_tr, st_tr, past, hdisc, nowait, trw⟩ := invC_reach hr
    have hpos : 0 < s.threads.length := by omega
    obtain ⟨p, hp⟩ := List.exists_mem_of_length_pos hpos
    have htr : s.transports = 1 := past p hp (by rw [hdone p hp]; trivial)
    refine ⟨htr, ?_⟩
    rw [vc, allDone_count hdone, len]
  · intro s hr
    obtain ⟨len, vc, tr_le, ws_tr, st_tr, past, hdisc, nowait, trw⟩ := invC_reach hr
    have hnil : s.threads = [] := List.length_eq_zero.mp len
    constructor
    · rcases trw with h0 | ⟨p, hp, _⟩
      · exact h0
      · rw [hnil] at hp
        exact absurd hp (List.not_mem_nil p)
    · rw [vc, hnil]
      rfl
  · intro n s hr
    have inv := invD_reach hr
    rw [inv.starts]
    split <;> omega
  · intro t t2 h i d h1 h2
    exact step_waitingDisc_resolved h i d h1 h2

/-- C2 counterexample: the claim quantifies over every number of
concurrent connect() calls including zero, yet the empty interleaving on
a fresh connector terminates with no Transport created, refuting exactly
one physical Transport is created. -/
theorem c2_counterexample :
    Reach false (Sys.init 0) (Sys.init 0) ∧ (Sys.init 0).allDone ∧
      ¬(Sys.init 0).transports = 1 :=
  ⟨Relation.ReflTransGen.refl, by decide, by decide⟩

/-- Four-step execution of a single connect() caller, used to witness
the amended claim at a concrete run. -/
def sysB : Sys :=
  { stateVal := WebSocketState.Connecting, ws := some WsPhase.connectingW,
    transports := 1, vcCount := 0, disc := none, discNext := 0,
    discDone := [], discStarts := 0, threads := [CPhase.waitingWs] }

def sysC : Sys :=
  { sysB with ws := some WsPhase.openW,
              stateVal := WebSocketState.Connected,
              threads := [CPhase.micro WebSocketState.Connected] }

def sysD : Sys :=
  { sysC with threads := [CPhase.bridge] }

def sysE : Sys :=
  { sysD with vcCount := 1, threads := [CPhase.done] }

lemma reach_sysE : Reach false (Sys.init 1) sysE := by
  have hAB : Step false (Sys.init 1) sysB :=
    Step.startCreate (Sys.init 1) [] [] rfl (by decide) rfl rfl
  have hBC : Step false sysB sysC := Step.wsOpen sysB rfl
  have hCD : Step false sysC sysD :=
    Step.resumeMicro sysC [] [] WebSocketState.Connected rfl
  have hDE : Step false sysD sysE := Step.runBridge sysD [] [] rfl
  exact Relation.ReflTransGen.head hAB (Relation.ReflTransGen.head hBC
    (Relation.ReflTransGen.head hCD (Relation.ReflTransGen.single hDE)))

/-- Witness for C2 at the concrete one-caller run: one Transport, one
virtual connection. -/
theorem c2_connect_interleavings_witness :
    sysE.transports = 1 ∧ sysE.vcCount = 1 :=
  c2_connect_interleavings.2.1 1 sysE reach_sysE (by decide) (by decide)

/-! ## Frame lemmas for disposal -/

lemma disposeVC_frame (c : Conn) (i : Nat) :
    (c.disposeVC i).stateS = c.stateS ∧ (c.disposeVC i).errorS = c.errorS ∧
    (c.disposeVC i).messageS = c.messageS ∧
    (c.disposeVC i).lifecycle = c.lifecycle ∧
    (c.disposeVC i).transport = c.transport ∧
    (c.disposeVC i).gracefulCloses = c.gracefulCloses ∧
    (c.disposeVC i).sent = c.sent ∧
    (c.disposeVC i).options = c.options ∧
    (c.disposeVC i).disconnecting = c.disconnecting := by
  unfold Conn.disposeVC Conn.scheduleIdleDisconnect Conn.cancelIdleDisconnect
  dsimp only
  split
  · simp
  · split
    · simp
    · split
      · split
        · simp
        · simp
      · simp

lemma foldl_disposeVC_frame (ids : List Nat) (c : Conn) :
    (List.foldl Conn.disposeVC c ids).stateS = c.stateS ∧
    (List.foldl Conn.disposeVC c ids).errorS = c.errorS ∧
    (List.foldl Conn.disposeVC c ids).messageS = c.messageS ∧
    (List.foldl Conn.disposeVC c ids).lifecycle = c.lifecycle ∧
    (List.foldl Conn.disposeVC c ids).transport = c.transport ∧
    (List.foldl Conn.disposeVC c ids).gracefulCloses = c.gracefulCloses ∧
    (List.foldl Conn.disposeVC c ids).sent = c.sent ∧
    (List.foldl Conn.disposeVC c ids).options = c.options ∧
    (List.foldl Conn.disposeVC c ids).disconnecting = c.disconnecting := by
  induction ids generalizing c with
  | nil => exact ⟨rfl, rfl, rfl, rfl, rfl, rfl, rfl, rfl, rfl⟩
  | cons i t ih =>
      rw [List.foldl_cons]
      obtain ⟨h1, h2, h3, h4, h5, h6, h7, h8, h9⟩ := ih (c.disposeVC i)
      obtain ⟨g1, g2, g3, g4, g5, g6, g7, g8, g9⟩ := disposeVC_frame c i
      exact ⟨h1.trans g1, h2.trans g2, h3.trans g3, h4.trans g4, h5.trans g5,
        h6.trans g6, h7.trans g7, h8.trans g8, h9.trans g9⟩

lemma scheduleIdleDisconnect_handles (c : Conn) :
    (c.scheduleIdleDisconnect).handles = c.handles := by
  unfold Conn.scheduleIdleDisconnect Conn.cancelIdleDisconnect
  split <;> rfl

lemma markDisposed_map_id (hs : List VirtualConn) (i : Nat) :
    (markDisposed hs i).map VirtualConn.id = hs.map VirtualConn.id := by
  unfold markDisposed
  rw [List.map_map]
  apply List.map_congr_left
  intro w _
  simp only [Function.comp]
  split <;> rfl

lemma disposeVC_handles_cases (c : Conn) (i : Nat) :
    (c.disposeVC i).handles = c.handles ∨
    (c.disposeVC i).handles = markDisposed c.handles i := by
  unfold Conn.disposeVC
  dsimp only
  split
  · exact Or.inl rfl
  · split
    · exact Or.inl rfl
    · split
      · rw [scheduleIdleDisconnect_handles]
        exact Or.inr rfl
      · exact Or.inr rfl

lemma disposeVC_map_id (c : Conn) (i : Nat) :
    ((c.disposeVC i).handles.map VirtualConn.id) =
      (c.handles.map VirtualConn.id) := by
  rcases disposeVC_handles_cases c i with h | h <;> rw [h]
  rw [markDisposed_map_id]

lemma markDisposed_live_id {hs : List VirtualConn} {i : Nat} {v : VirtualConn}
    (hv : v ∈ markDisposed hs i) (hb : v.disposed = false) :
    v.id ≠ i ∧ v ∈ hs := by
  unfold markDisposed at hv
  rcases List.mem_map.mp hv with ⟨w, hw, hmap⟩
  by_cases hwid : w.id = i
  · rw [if_pos hwid] at hmap
    rw [← hmap] at hb
    exact absurd hb (by simp)
  · rw [if_neg hwid] at hmap
    rw [← hmap]
    exact ⟨hwid, hw⟩

lemma disposeVC_no_live_id (c : Conn) (i : Nat)
    (hnd : (c.handles.map VirtualConn.id).Nodup) :
    ∀ v ∈ (c.disposeVC i).handles, v.disposed = false → v.id ≠ i := by
  intro v hv hb hid
  unfold Conn.disposeVC at hv
  dsimp only at hv
  split at hv
  case h_1 hfind =>
      rw [List.find?_eq_none] at hfind
      exact hfind v hv (by simp [hid])
  case h_2 v0 hfind =>
      split at hv
      case isTrue hdis =>
          have hmem0 : v0 ∈ c.handles := List.mem_of_find?_eq_some hfind
          have hid0 : v0.id = i := by
            have := List.find?_some hfind
            simpa using this
          have hv0 : v = v0 :=
            List.inj_on_of_nodup_map hnd hv hmem0 (by rw [hid, hid0])
          rw [hv0, hdis] at hb
          exact Bool.noConfusion hb
      case isFalse hdis =>
          split at hv
          · rw [scheduleIdleDisconnect_handles] at hv
            exact (markDisposed_live_id hv hb).1 hid
          · exact (markDisposed_live_id hv hb).1 hid

lemma foldl_disposeVC_disposes (ids : List Nat) (c : Conn)
    (hnd : (c.handles.map VirtualConn.id).Nodup)
    (hids : ∀ v ∈ c.handles, v.disposed = false → v.id ∈ ids) :
    ∀ v ∈ (List.foldl Conn.disposeVC c ids).handles, v.disposed = true := by
  induction ids generalizing c with
  | nil =>
      intro v hv
      cases hb : v.disposed
      · exact absurd (hids v hv hb) (List.not_mem_nil _)
      · rfl
  | cons i t ih =>
      rw [List.foldl_cons]
      apply ih
      · rw [disposeVC_map_id]
        exact hnd
      · intro v hv hb
        have hvid : v.id ≠ i := disposeVC_no_live_id c i hnd v hv hb
        have hvmem : v ∈ c.handles := by
          rcases disposeVC_handles_cases c i with h | h
          · rw [h] at hv; exact hv
          · rw [h] at hv
            exact (markDisposed_live_id hv hb).2
        rcases List.mem_cons.mp (hids v hvmem hb) with h | h
        · exact absurd h hvid
        · exact h

lemma completeMessageS_map_id (c : Conn) :
    ((c.completeMessageS).handles.map VirtualConn.id) =
      c.handles.map VirtualConn.id := by
  unfold Conn.completeMessageS
  dsimp only
  split
  · rfl
  · rw [List.map_map]
    apply List.map_congr_left
    intro w _
    simp only [Function.comp]
    split <;> rfl

lemma live_id_mem (hs : List VirtualConn) :
    ∀ v ∈ hs, v.disposed = false →
      v.id ∈ (hs.filter (fun v => !v.disposed)).map VirtualConn.id := by
  intro v hv hb
  exact List.mem_map_of_mem _ (List.mem_filter.mpr ⟨hv, by simp [hb]⟩)

lemma disconnectSeq_eq (c : Conn) (hdc : c.disconnecting = false) :
    c.disconnectSeq =
      { c with
          stateS := (c.stateS.next WebSocketState.Disconnecting).next
            WebSocketState.Disconnected,
          transport := false,
          gracefulCloses := c.gracefulCloses + (if c.transport then 1 else 0),
          disconnecting := false } := by
  obtain ⟨opts, stS, errS, msgS, hnds, idle, att, dc, tr, gc, snt, lc⟩ := c
  simp only at hdc
  subst hdc
  unfold Conn.disconnectSeq Conn.ensureDisconnect
  cases tr <;> simp

lemma disposeAsync_spec (c : Conn)
    (halive : c.lifecycle = Lifecycle.alive)
    (hss : c.stateS.stopped = false) (hdc : c.disconnecting = false) :
    (c.disposeAsync).stateS =
      { value := WebSocketState.Disposed,
        log := c.stateS.log ++ [WebSocketState.Disconnecting,
          WebSocketState.Disconnected, WebSocketState.Disposing,
          WebSocketState.Disposed],
        stopped := true }
    ∧ (c.disposeAsync).errorS.stopped = true
    ∧ (c.disposeAsync).messageS.stopped = true
    ∧ (c.disposeAsync).transport = false
    ∧ (c.disposeAsync).gracefulCloses =
        c.gracefulCloses + (if c.transport then 1 else 0)
    ∧ (c.disposeAsync).lifecycle = Lifecycle.disposed := by
  unfold Conn.disposeAsync Conn.disposeAll
  rw [if_neg (by simp [halive])]
  dsimp only
  rw [disconnectSeq_eq _ (by exact hdc)]
  dsimp only
  refine ⟨?_, ?_, ?_, ?_, ?_, ?_⟩
  · rw [(foldl_disposeVC_frame _ _).1]
    simp [Conn.completeMessageS, MBehavior.next, MBehavior.complete, hss]
  · rw [(foldl_disposeVC_frame _ _).2.1]
    simp [Conn.completeMessageS, MSubject.complete]
  · rw [(foldl_disposeVC_frame _ _).2.2.1]
    simp [Conn.completeMessageS, MSubject.complete]
  · rw [(foldl_disposeVC_frame _ _).2.2.2.2.1]
  · rw [(foldl_disposeVC_frame _ _).2.2.2.2.2.1]
    simp [Conn.completeMessageS]
  · rfl

lemma disposeAsync_handles_disposed (c : Conn)
    (halive : c.lifecycle = Lifecycle.alive)
    (hdc : c.disconnecting = false)
    (hnd : (c.handles.map VirtualConn.id).Nodup) :
    ∀ v ∈ (c.disposeAsync).handles, v.disposed = true := by
  unfold Conn.disposeAsync Conn.disposeAll
  rw [if_neg (by simp [halive])]
  dsimp only
  rw [disconnectSeq_eq _ (by exact hdc)]
  dsimp only
  intro v hv
  refine foldl_disposeVC_disposes _ _ ?_ ?_ v hv
  · show ((({ c with lifecycle := Lifecycle.disposing } :
        Conn).completeMessageS).handles.map VirtualConn.id).Nodup
    rw [completeMessageS_map_id]
    exact hnd
  · exact live_id_mem _

lemma connect_not_alive (c : Conn) (h : c.lifecycle ≠ Lifecycle.alive)
    (ensure : Except Err WebSocketState) (i : Nat) :
    c.connect ensure i = (c, Except.error Err.objectDisposed) := by
  unfold Conn.connect
  rw [if_pos h]

/-- Input refuting C3: a connector whose state value is Disposing (the
error and message subjects already completed, one handle still live, a
retry budget of one). -/
def c3Conn : Conn :=
  { options := { reconnectAttempts := some 1, idleTimeoutMs := none },
    stateS := { value := WebSocketState.Disposing,
                log := [WebSocketState.Disposing], stopped := false },
    errorS := { log := [], stopped := true },
    messageS := { log := [], stopped := true },
    handles := [{ id := 0, disposed := false, subscribed := true,
                  msg := { log := [], stopped := true } }],
    idleTimer := none, currentAttempt := 0, disconnecting := false,
    transport := false, gracefulCloses := 0, sent := [],
    lifecycle := Lifecycle.disposing }

/-- C3 counterexample: a transport failure handled by
_handleConnectionFailure while the state value is Disposing is not
silently ignored: the connector emits Reconnecting on the state stream
right after Disposing, a transition back toward connected, because the
failure handler writes the state subject directly instead of going
through the guarded _updateState (which, by contrast, does ignore the
request). -/
theorem c3_counterexample :
    c3Conn.stateS.value = WebSocketState.Disposing ∧
    (c3Conn.handleConnectionFailure (Err.transport 2)).1.stateS.log =
      [WebSocketState.Disposing, WebSocketState.Reconnecting] ∧
    (c3Conn.handleConnectionFailure (Err.transport 2)).1.stateS.value =
      WebSocketState.Reconnecting ∧
    c3Conn.updateState WebSocketState.Disconnected = c3Conn := by
  refine ⟨rfl, ?_, ?_, ?_⟩ <;> decide

/-- C3 (amended): state-changing requests routed through the guarded
_updateState are ignored while the state value is Disposing or Disposed;
once the state stream is completed (which disposal does on reaching
Disposed) neither _updateState nor _handleConnectionFailure changes the
emitted log; and the disposal sequence itself emits Disposing and then
Disposed as its final two emissions and completes the stream, so nothing
is emitted after Disposed.  A failure routed through
_handleConnectionFailure while the state value is Disposing is however
not ignored (see the counterexample), so the silently-ignored guarantee
is limited to the _updateState path and to the completed stream. -/
theorem c3_disposal_monotonic :
    (∀ (c : Conn) (st : WebSocketState),
        c.stateS.value = WebSocketState.Disposing ∨
        c.stateS.value = WebSocketState.Disposed → c.updateState st = c)
    ∧ (∀ (c : Conn), c.stateS.stopped = true →
        (∀ st, (c.updateState st).stateS.log = c.stateS.log)
        ∧ (∀ e, (c.handleConnectionFailure e).1.stateS.log = c.stateS.log))
    ∧ (∀ (c : Conn), c.lifecycle = Lifecycle.alive →
        c.stateS.stopped = false → c.disconnecting = false →
        (c.disposeAsync).stateS.log =
          c.stateS.log ++ [WebSocketState.Disconnecting,
            WebSocketState.Disconnected, WebSocketState.Disposing,
            WebSocketState.Disposed]
        ∧ (c.disposeAsync).stateS.stopped = true) := by
  refine ⟨?_, ?_, ?_⟩
  · intro c st h
    unfold Conn.updateState
    rcases h with h | h <;> rw [if_neg (by simp [h])]
  · intro c h
    constructor
    · intro st
      unfold Conn.updateState
      split
      · simp [MBehavior.next, h]
      · rfl
    · intro e
      unfold Conn.handleConnectionFailure Conn.emitError
      dsimp only
      split <;> simp [MBehavior.next, h]
  · intro c h1 h2 h3
    refine ⟨?_, ?_⟩ <;> rw [(disposeAsync_spec c h1 h2 h3).1]

/-- Witness for C3 (amended) at a concrete connector: disposing the
healthy connector completes the state stream and its final emissions
are Disposing then Disposed. -/
theorem c3_disposal_monotonic_witness :
    baseConn.lifecycle = Lifecycle.alive ∧
    baseConn.stateS.stopped = false ∧ baseConn.disconnecting = false ∧
    (baseConn.disposeAsync).stateS.stopped = true :=
  ⟨rfl, rfl, rfl, (c3_disposal_monotonic.2.2 baseConn rfl rfl rfl).2⟩

/-- C4: disposeAsync stops the error and message streams, gracefully
closes the transport only if one exists, emits Disposing, disposes every
live handle, emits Disposed and completes the state stream; afterwards
the final two state emissions are Disposing then Disposed, both side
streams are completed, and any subsequent connect() fails with the
disposed error. -/
theorem c4_dispose_sequence (c : Conn)
    (halive : c.lifecycle = Lifecycle.alive)
    (hss : c.stateS.stopped = false)
    (hdc : c.disconnecting = false)
    (hnd : (c.handles.map VirtualConn.id).Nodup) :
    (c.disposeAsync).stateS.log =
      c.stateS.log ++ [WebSocketState.Disconnecting,
        WebSocketState.Disconnected, WebSocketState.Disposing,
        WebSocketState.Disposed]
    ∧ (c.disposeAsync).stateS.stopped = true
    ∧ (c.disposeAsync).errorS.stopped = true
    ∧ (c.disposeAsync).messageS.stopped = true
    ∧ (c.disposeAsync).gracefulCloses =
        c.gracefulCloses + (if c.transport then 1 else 0)
    ∧ (c.disposeAsync).transport = false
    ∧ (∀ v ∈ (c.disposeAsync).handles, v.disposed = true)
    ∧ (∀ (ensure : Except Err WebSocketState) (i : Nat),
        (c.disposeAsync).connect ensure i =
          (c.disposeAsync, Except.error Err.objectDisposed)) := by
  obtain ⟨h1, h2, h3, h4, h5, h6⟩ := disposeAsync_spec c halive hss hdc
  refine ⟨by rw [h1], by rw [h1], h2, h3, h5, h4,
    disposeAsync_handles_disposed c halive hdc hnd, ?_⟩
  intro ensure i
  exact connect_not_alive _ (by rw [h6]; simp) ensure i

/-- Witness for C4 at a concrete connector: disposing the healthy
connected connector emits Disconnecting, Disconnected, Disposing,
Disposed and closes the single transport gracefully. -/
theorem c4_dispose_sequence_witness :
    baseConn.lifecycle = Lifecycle.alive ∧
    baseConn.stateS.stopped = false ∧ baseConn.disconnecting = false ∧
    (baseConn.handles.map VirtualConn.id).Nodup ∧
    (baseConn.disposeAsync).stateS.log =
      [WebSocketState.Disconnected, WebSocketState.Connecting,
       WebSocketState.Connected, WebSocketState.Disconnecting,
       WebSocketState.Disconnected, WebSocketState.Disposing,
       WebSocketState.Disposed] :=
  ⟨rfl, rfl, rfl, by decide,
    (c4_dispose_sequence baseConn rfl rfl rfl (by decide)).1⟩

/-! ## Connect sequence frame and characterization -/

lemma connectSeq_frame (c : Conn) (ensure : Except Err WebSocketState) :
    (c.connectSeq ensure).1.idleTimer = c.idleTimer ∧
    (c.connectSeq ensure).1.handles = c.handles ∧
    (c.connectSeq ensure).1.errorS = c.errorS ∧
    (c.connectSeq ensure).1.messageS = c.messageS ∧
    (c.connectSeq ensure).1.sent = c.sent ∧
    (c.connectSeq ensure).1.lifecycle = c.lifecycle ∧
    (c.connectSeq ensure).1.options = c.options ∧
    (c.connectSeq ensure).1.currentAttempt = c.currentAttempt ∧
    (c.connectSeq ensure).1.disconnecting = c.disconnecting := by
  unfold Conn.connectSeq
  split
  · exact ⟨rfl, rfl, rfl, rfl, rfl, rfl, rfl, rfl, rfl⟩
  · split
    · exact ⟨rfl, rfl, rfl, rfl, rfl, rfl, rfl, rfl, rfl⟩
    · dsimp only
      cases ensure <;>
        exact ⟨rfl, rfl, rfl, rfl, rfl, rfl, rfl, rfl, rfl⟩

lemma liveCount_append_newVC (hs : List VirtualConn) (i : Nat) :
    ((hs ++ [newVC i]).filter (fun v => !v.disposed)).length =
      (hs.filter (fun v => !v.disposed)).length + 1 := by
  rw [List.filter_append]
  simp [newVC]

lemma connect_eq (c : Conn) (ensure : Except Err WebSocketState) (i : Nat)
    (h : c.lifecycle = Lifecycle.alive) :
    c.connect ensure i =
      (match (if c.cancelIdleDisconnect.stateS.value ≠ WebSocketState.Connected
              then c.cancelIdleDisconnect.connectSeq ensure
              else (c.cancelIdleDisconnect, none)) with
       | (c1, some e) => (c1, Except.error e)
       | (c1, none) =>
           ({ c1 with handles := c1.handles ++ [newVC i] }, Except.ok i)) := by
  unfold Conn.connect
  rw [if_neg (by simp [h])]

lemma connect_idleTimer_none (c : Conn) (ensure : Except Err WebSocketState)
    (i : Nat) (h : c.lifecycle = Lifecycle.alive) :
    (c.connect ensure i).1.idleTimer = none := by
  rw [connect_eq c ensure i h]
  split
  case h_1 c1 e heq =>
      split at heq
      · have := (connectSeq_frame c.cancelIdleDisconnect ensure).1
        rw [heq] at this
        exact this
      · injection heq with heq1 heq2
        rw [← heq1]
        rfl
  case h_2 c1 heq =>
      show c1.idleTimer = none
      split at heq
      · have := (connectSeq_frame c.cancelIdleDisconnect ensure).1
        rw [heq] at this
        exact this
      · injection heq with heq1 heq2
        rw [← heq1]
        rfl

/-- C5: idle teardown.  The target-state test is exactly Connecting,
Reconnecting or Connected; outside it no timer is scheduled, inside it a
single timer is armed for idleTimeoutMs (default 10000); when the timer
fires with no live handle and disposal not begun, the transport is torn
down and the state returns to Disconnected, otherwise only the timer
handle is cleared; and any connect() while alive leaves no pending
timer. -/
theorem c5_idle_teardown (c : Conn) :
    (c.targetState = true ↔ (c.stateS.value = WebSocketState.Connecting ∨
        c.stateS.value = WebSocketState.Reconnecting ∨
        c.stateS.value = WebSocketState.Connected))
    ∧ (c.targetState = false → c.scheduleIdleDisconnect = c)
    ∧ (c.targetState = true →
        c.scheduleIdleDisconnect =
          { c with idleTimer := some (c.options.idleTimeoutMs.getD 10000) })
    ∧ (¬(c.liveCount = 0 ∧ c.lifecycle = Lifecycle.alive ∧
          c.stateS.value ≠ WebSocketState.Disposing) →
        c.idleTimerFire = { c with idleTimer := none })
    ∧ (c.liveCount = 0 → c.lifecycle = Lifecycle.alive →
        c.stateS.value ≠ WebSocketState.Disposing →
        c.disconnecting = false → c.stateS.stopped = false →
        (c.idleTimerFire).transport = false
        ∧ (c.idleTimerFire).stateS.value = WebSocketState.Disconnected
        ∧ (c.idleTimerFire).stateS.log =
            c.stateS.log ++ [WebSocketState.Disconnecting,
              WebSocketState.Disconnected]
        ∧ (c.idleTimerFire).idleTimer = none)
    ∧ (∀ (ensure : Except Err WebSocketState) (i : Nat),
        c.lifecycle = Lifecycle.alive →
        (c.connect ensure i).1.idleTimer = none) := by
  refine ⟨?_, ?_, ?_, ?_, ?_, ?_⟩
  · unfold Conn.targetState
    cases h : c.stateS.value <;> simp [h]
  · intro h
    unfold Conn.scheduleIdleDisconnect
    rw [if_pos (by simp [h])]
  · intro h
    unfold Conn.scheduleIdleDisconnect Conn.cancelIdleDisconnect
    rw [if_neg (by simp [h])]
  · intro h
    unfold Conn.idleTimerFire
    dsimp only
    rw [if_neg (by exact h)]
  · intro h1 h2 h3 h4 h5
    unfold Conn.idleTimerFire
    dsimp only
    rw [if_pos ⟨h1, h2, h3⟩]
    rw [disconnectSeq_eq _ (by exact h4)]
    refine ⟨rfl, ?_, ?_, rfl⟩
    · simp [MBehavior.next, h5]
    · simp [MBehavior.next, h5]
  · intro ensure i h
    exact connect_idleTimer_none c ensure i h

/-- A connected connector with no live handles (the idle situation). -/
def idleConn : Conn := { baseConn with handles := [] }

/-- Witness for C5 at a concrete connector: the timer callback on the
idle connected connector tears the transport down and returns the state
to Disconnected. -/
theorem c5_idle_teardown_witness :
    idleConn.liveCount = 0 ∧ idleConn.lifecycle = Lifecycle.alive ∧
    idleConn.stateS.value ≠ WebSocketState.Disposing ∧
    idleConn.disconnecting = false ∧ idleConn.stateS.stopped = false ∧
    ((idleConn.idleTimerFire).transport = false ∧
      (idleConn.idleTimerFire).stateS.value = WebSocketState.Disconnected) :=
  ⟨rfl, rfl, by decide, rfl, rfl,
    ⟨((c5_idle_teardown idleConn).2.2.2.2.1 rfl rfl (by decide) rfl rfl).1,
     ((c5_idle_teardown idleConn).2.2.2.2.1 rfl rfl (by decide) rfl rfl).2.1⟩⟩

/-- C6: connect() fails with the disposed error when disposal has begun;
otherwise it cancels the pending idle timer, performs and awaits the
connect sequence when the state is not already Connected (propagating
its failure), then creates and registers a fresh virtual connection,
raising activeVirtualConnections by exactly one, and returns it. -/
theorem c6_connect_contract (c : Conn) (ensure : Except Err WebSocketState)
    (i : Nat) :
    (c.lifecycle ≠ Lifecycle.alive →
        c.connect ensure i = (c, Except.error Err.objectDisposed))
    ∧ (c.lifecycle = Lifecycle.alive →
        (c.connect ensure i).1.idleTimer = none
        ∧ (c.stateS.value = WebSocketState.Connected →
            c.connect ensure i =
              ({ c.cancelIdleDisconnect with
                  handles := c.handles ++ [newVC i] }, Except.ok i))
        ∧ (c.stateS.value ≠ WebSocketState.Connected →
            (∀ e, (c.cancelIdleDisconnect.connectSeq ensure).2 = some e →
              c.connect ensure i =
                ((c.cancelIdleDisconnect.connectSeq ensure).1,
                  Except.error e))
            ∧ ((c.cancelIdleDisconnect.connectSeq ensure).2 = none →
              c.connect ensure i =
                ({ (c.cancelIdleDisconnect.connectSeq ensure).1 with
                    handles :=
                      (c.cancelIdleDisconnect.connectSeq ensure).1.handles ++
                        [newVC i] }, Except.ok i)))
        ∧ (∀ (c2 : Conn) (j : Nat), c.connect ensure i = (c2, Except.ok j) →
            j = i ∧ c2.liveCount = c.liveCount + 1)) := by
  refine ⟨?_, ?_⟩
  · intro h
    exact connect_not_alive c h ensure i
  · intro h
    refine ⟨connect_idleTimer_none c ensure i h, ?_, ?_, ?_⟩
    · intro hcon
      rw [connect_eq c ensure i h]
      rw [if_neg (by simp [Conn.cancelIdleDisconnect, hcon])]
      rfl
    · intro hcon
      constructor
      · intro e he
        rw [connect_eq c ensure i h]
        rw [if_pos (by simp [Conn.cancelIdleDisconnect, hcon])]
        rcases hr : c.cancelIdleDisconnect.connectSeq ensure with ⟨c1, e2⟩
        rw [hr] at he
        dsimp only at he
        rw [he]
      · intro he
        rw [connect_eq c ensure i h]
        rw [if_pos (by simp [Conn.cancelIdleDisconnect, hcon])]
        rcases hr : c.cancelIdleDisconnect.connectSeq ensure with ⟨c1, e2⟩
        rw [hr] at he
        dsimp only at he
        rw [he]
    · intro c2 j hok
      rw [connect_eq c ensure i h] at hok
      split at hok
      case h_1 c1 e heq =>
          injection hok with hok1 hok2
          exact Except.noConfusion hok2
      case h_2 c1 heq =>
          injection hok with hok1 hok2
          injection hok2 with hok2
          refine ⟨hok2.symm, ?_⟩
          rw [← hok1]
          show ((c1.handles ++ [newVC i]).filter (fun v => !v.disposed)).length
            = c.liveCount + 1
          rw [liveCount_append_newVC]
          split at heq
          · have := (connectSeq_frame c.cancelIdleDisconnect ensure).2.1
            rw [heq] at this
            dsimp only at this
            rw [this]
            rfl
          · injection heq with heq1 heq2
            rw [← heq1]
            rfl

/-- Witness for C6 at a concrete connector: connecting on the healthy
connected connector registers a second virtual connection. -/
theorem c6_connect_contract_witness :
    baseConn.lifecycle = Lifecycle.alive ∧
    baseConn.stateS.value = WebSocketState.Connected ∧
    baseConn.connect (Except.ok WebSocketState.Connected) 1 =
      ({ baseConn.cancelIdleDisconnect with
          handles := baseConn.handles ++ [newVC 1] }, Except.ok 1) :=
  ⟨rfl, rfl,
    ((c6_connect_contract baseConn (Except.ok WebSocketState.Connected) 1).2
      rfl).2.1 rfl⟩

/-- C7: VirtualConnection.send fails with the disposed error on a
disposed handle and otherwise delegates to the connector send; the
connector send, when not Connected, runs one connect sequence and fails
with the not-connected error when still not Connected afterward (or
propagates the connect failure), and otherwise hands the data to the
transport. -/
theorem c7_send_contract (c : Conn) (v : VirtualConn)
    (ensure : Except Err WebSocketState) (data : Nat)
    (halive : c.lifecycle = Lifecycle.alive) :
    (v.disposed = true → c.vcSend v ensure data = (c, some Err.objectDisposed))
    ∧ (v.disposed = false → c.vcSend v ensure data = c.sendMsg ensure data)
    ∧ (c.stateS.value = WebSocketState.Connected →
        c.sendMsg ensure data = ({ c with sent := c.sent ++ [data] }, none))
    ∧ (c.stateS.value ≠ WebSocketState.Connected →
        (∀ e, (c.connectSeq ensure).2 = some e →
            c.sendMsg ensure data = ((c.connectSeq ensure).1, some e))
        ∧ ((c.connectSeq ensure).2 = none →
            (c.connectSeq ensure).1.stateS.value ≠ WebSocketState.Connected →
            c.sendMsg ensure data =
              ((c.connectSeq ensure).1, some Err.failedToConnect))
        ∧ ((c.connectSeq ensure).2 = none →
            (c.connectSeq ensure).1.stateS.value = WebSocketState.Connected →
            c.sendMsg ensure data =
              ({ (c.connectSeq ensure).1 with
                  sent := (c.connectSeq ensure).1.sent ++ [data] }, none))) := by
  refine ⟨?_, ?_, ?_, ?_⟩
  · intro h
    unfold Conn.vcSend
    rw [if_pos h]
  · intro h
    unfold Conn.vcSend
    rw [if_neg (by simp [h])]
  · intro hcon
    unfold Conn.sendMsg
    rw [if_neg (by simp [halive])]
    dsimp only
    rw [if_neg (by simp [hcon])]
    dsimp only
    rw [if_neg (by simp [hcon])]
  · intro hcon
    refine ⟨?_, ?_, ?_⟩
    · intro e he
      unfold Conn.sendMsg
      rw [if_neg (by simp [halive])]
      dsimp only
      rw [if_pos (by simp [hcon])]
      rcases hr : c.connectSeq ensure with ⟨c1, e2⟩
      rw [hr] at he
      dsimp only at he
      rw [he]
    · intro he hst
      unfold Conn.sendMsg
      rw [if_neg (by simp [halive])]
      dsimp only
      rw [if_pos (by simp [hcon])]
      rcases hr : c.connectSeq ensure with ⟨c1, e2⟩
      rw [hr] at he hst
      dsimp only at he hst
      rw [he]
      dsimp only
      rw [if_pos (by simp [hst])]
    · intro he hst
      unfold Conn.sendMsg
      rw [if_neg (by simp [halive])]
      dsimp only
      rw [if_pos (by simp [hcon])]
      rcases hr : c.connectSeq ensure with ⟨c1, e2⟩
      rw [hr] at he hst
      dsimp only at he hst
      rw [he]
      dsimp only
      rw [if_neg (by simp [hst])]

/-- Witness for C7 at a concrete connector: a live handle delegates and
the data reaches the transport; a disposed handle fails with the
disposed error. -/
theorem c7_send_contract_witness :
    baseConn.lifecycle = Lifecycle.alive ∧
    (newVC 0).disposed = false ∧
    baseConn.stateS.value = WebSocketState.Connected ∧
    baseConn.vcSend (newVC 0) (Except.ok WebSocketState.Connected) 5 =
      ({ baseConn with sent := [5] }, none) := by
  have h := c7_send_contract baseConn (newVC 0)
    (Except.ok WebSocketState.Connected) 5 rfl
  refine ⟨rfl, rfl, rfl, ?_⟩
  rw [h.2.1 rfl, h.2.2.1 rfl]
  rfl

/-! ## Frame lemmas for the failure handler -/

lemma handleConnectionFailure_frame (c : Conn) (e : Err) :
    (c.handleConnectionFailure e).1.handles = c.handles ∧
    (c.handleConnectionFailure e).1.messageS = c.messageS := by
  unfold Conn.handleConnectionFailure Conn.emitError
  dsimp only
  split <;> exact ⟨rfl, rfl⟩

lemma retryFire_handles (c : Conn) (ensure : Except Err WebSocketState) :
    (c.retryFire ensure).1.handles = c.handles := by
  unfold Conn.retryFire
  split
  · split
    case h_1 c1 heq =>
        show c1.handles = c.handles
        have := (connectSeq_frame c ensure).2.1
        rw [heq] at this
        exact this
    case h_2 c1 e2 heq =>
        rw [(handleConnectionFailure_frame c1 e2).1]
        have := (connectSeq_frame c ensure).2.1
        rw [heq] at this
        exact this
  · rfl

/-- C8: neither a transport failure nor a reconnection attempt disposes
a live virtual connection or completes its message stream: the handle
list (including every handle's own subject) is unchanged by the failure
handler and by the retry callback, the live count is unchanged, and a
message emitted afterwards still reaches every subscribed handle. -/
theorem c8_failure_frame (c : Conn) (e : Err) :
    (c.handleConnectionFailure e).1.handles = c.handles
    ∧ (c.handleConnectionFailure e).1.liveCount = c.liveCount
    ∧ (∀ (ensure : Except Err WebSocketState),
        (c.retryFire ensure).1.handles = c.handles)
    ∧ (∀ (m : Nat), c.messageS.stopped = false →
        ((c.handleConnectionFailure e).1.emitMessage m).handles =
          c.handles.map fun v =>
            if v.subscribed then { v with msg := v.msg.next m } else v) := by
  refine ⟨(handleConnectionFailure_frame c e).1, ?_, ?_, ?_⟩
  · simp [Conn.liveCount, (handleConnectionFailure_frame c e).1]
  · exact fun ensure => retryFire_handles c ensure
  · intro m hm
    unfold Conn.emitMessage
    dsimp only
    rw [(handleConnectionFailure_frame c e).2,
      (handleConnectionFailure_frame c e).1]
    rw [if_neg (by simp [hm])]

/-- Witness for C8 at a concrete connector: after a handled failure a
message still reaches the live handle. -/
theorem c8_failure_frame_witness :
    baseConn.messageS.stopped = false ∧
    ((baseConn.handleConnectionFailure (Err.transport 4)).1.emitMessage
        7).handles =
      baseConn.handles.map fun v =>
        if v.subscribed then { v with msg := v.msg.next 7 } else v :=
  ⟨rfl, (c8_failure_frame baseConn (Err.transport 4)).2.2.2 7 rfl⟩

/-- C10: every message the connector emits on its internal message
stream is forwarded synchronously to the own stream of every live
virtual connection, whatever the connection state is — the delivery does
not depend on the state value at all, so a message arriving during
Reconnecting is delivered immediately rather than buffered. -/
theorem c10_message_broadcast (c : Conn) (m : Nat)
    (h : c.messageS.stopped = false) :
    (c.emitMessage m).messageS.log = c.messageS.log ++ [m]
    ∧ (c.emitMessage m).handles = (c.handles.map fun v =>
        if v.subscribed then { v with msg := v.msg.next m } else v)
    ∧ (∀ v ∈ c.handles, v.subscribed = true → v.msg.stopped = false →
        ({ v with msg := { log := v.msg.log ++ [m], stopped := false } } :
          VirtualConn) ∈ (c.emitMessage m).handles)
    ∧ (c.emitMessage m).stateS = c.stateS
    ∧ (∀ (st : MBehavior WebSocketState),
        (({ c with stateS := st } : Conn).emitMessage m).handles =
          (c.emitMessage m).handles) := by
  refine ⟨?_, ?_, ?_, rfl, fun st => rfl⟩
  · unfold Conn.emitMessage
    simp [MSubject.next, h]
  · unfold Conn.emitMessage
    dsimp only
    rw [if_neg (by simp [h])]
  · intro v hv h1 h2
    unfold Conn.emitMessage
    dsimp only
    rw [if_neg (by simp [h])]
    refine List.mem_map.mpr ⟨v, hv, ?_⟩
    rw [if_pos h1]
    simp [MSubject.next, h2]

/-- The state subject of a connector mid-reconnection. -/
def reconnState : MBehavior WebSocketState :=
  { value := WebSocketState.Reconnecting,
    log := [WebSocketState.Reconnecting],
    stopped := false }

/-- The healthy connector observed while Reconnecting. -/
def reconnConn : Conn := { baseConn with stateS := reconnState }

/-- Witness for C10 at a concrete connector in the Reconnecting state: a
message emitted during Reconnecting lands in the live handle's own
stream immediately. -/
theorem c10_message_broadcast_witness :
    reconnConn.messageS.stopped = false ∧
    reconnConn.stateS.value = WebSocketState.Reconnecting ∧
    ({ newVC 0 with msg := { log := [9], stopped := false } } :
        VirtualConn) ∈ (reconnConn.emitMessage 9).handles := by
  refine ⟨rfl, rfl, ?_⟩
  have := (c10_message_broadcast reconnConn 9 rfl).2.2.1 (newVC 0)
    (by decide) rfl rfl
  simpa [newVC] using this

/-! ## Virtual connection disposal -/

lemma markDisposed_cons (a : VirtualConn) (t : List VirtualConn) (i : Nat) :
    markDisposed (a :: t) i =
      (if a.id = i then
          { a with disposed := true, subscribed := false,
                   msg := a.msg.complete }
        else a) :: markDisposed t i := rfl

lemma markDisposed_eq_of_not_mem (hs : List VirtualConn) (i : Nat)
    (h : i ∉ hs.map VirtualConn.id) : markDisposed hs i = hs := by
  induction hs with
  | nil => rfl
  | cons a t ih =>
      rw [List.map_cons, List.mem_cons] at h
      push_neg at h
      rw [markDisposed_cons, if_neg (fun he => h.1 he.symm), ih h.2]

lemma liveCount_markDisposed (hs : List VirtualConn) (i : Nat)
    (hnd : (hs.map VirtualConn.id).Nodup)
    (hv : ∃ v ∈ hs, v.id = i ∧ v.disposed = false) :
    ((markDisposed hs i).filter (fun v => !v.disposed)).length + 1 =
      (hs.filter (fun v => !v.disposed)).length := by
  induction hs with
  | nil =>
      rcases hv with ⟨v, hvm, _⟩
      exact absurd hvm (List.not_mem_nil v)
  | cons a t ih =>
      rw [List.map_cons, List.nodup_cons] at hnd
      obtain ⟨hai, hndt⟩ := hnd
      rcases hv with ⟨v, hvm, hvi, hvd⟩
      rw [markDisposed_cons]
      by_cases ha : a.id = i
      · have hveq : v = a := by
          rcases List.mem_cons.mp hvm with h | h
          · exact h
          · exfalso
            apply hai
            rw [ha, ← hvi]
            exact List.mem_map_of_mem VirtualConn.id h
        rw [if_pos ha, markDisposed_eq_of_not_mem t i (by rw [← ha]; exact hai)]
        rw [hveq] at hvd
        simp [List.filter_cons, hvd]
      · have hvt : v ∈ t := by
          rcases List.mem_cons.mp hvm with h | h
          · exact absurd (h ▸ hvi) ha
          · exact h
        rw [if_neg ha]
        have := ih hndt ⟨v, hvt, hvi, hvd⟩
        cases hb : a.disposed <;> simp [List.filter_cons, hb] <;> omega

lemma disposeVC_marks (c : Conn) (i : Nat)
    (hnd : (c.handles.map VirtualConn.id).Nodup)
    (hv : ∃ v ∈ c.handles, v.id = i ∧ v.disposed = false) :
    (c.disposeVC i).handles = markDisposed c.handles i := by
  rcases hv with ⟨v, hvm, hvi, hvd⟩
  unfold Conn.disposeVC
  dsimp only
  split
  case h_1 hfind =>
      exfalso
      rw [List.find?_eq_none] at hfind
      exact hfind v hvm (by simp [hvi])
  case h_2 v0 hfind =>
      have hv0m : v0 ∈ c.handles := List.mem_of_find?_eq_some hfind
      have hv0i : v0.id = i := by simpa using List.find?_some hfind
      have hv0v : v0 = v :=
        List.inj_on_of_nodup_map hnd hv0m hvm (by rw [hv0i, hvi])
      rw [if_neg (by rw [hv0v, hvd]; simp)]
      split
      · rw [scheduleIdleDisconnect_handles]
      · rfl

lemma find?_markDisposed (hs : List VirtualConn) (i : Nat) :
    (markDisposed hs i).find? (fun w => w.id = i) =
      (hs.find? (fun w => w.id = i)).map fun w =>
        { w with disposed := true, subscribed := false,
                 msg := w.msg.complete } := by
  induction hs with
  | nil => rfl
  | cons a t ih =>
      rw [markDisposed_cons]
      by_cases h : a.id = i
      · rw [if_pos h]
        rw [List.find?_cons_of_pos _ (by simp [h]),
          List.find?_cons_of_pos _ (by simp [h])]
        rfl
      · rw [if_neg h]
        rw [List.find?_cons_of_neg _ (by simp [h]),
          List.find?_cons_of_neg _ (by simp [h])]
        exact ih

lemma disposeVC_idem (c : Conn) (i : Nat) :
    (c.disposeVC i).disposeVC i = c.disposeVC i := by
  rcases hfind : c.handles.find? (fun w => w.id = i) with _ | v0
  · have h1 : c.disposeVC i = c := by
      unfold Conn.disposeVC
      rw [hfind]
    rw [h1, h1]
  · by_cases hdis : v0.disposed = true
    · have h1 : c.disposeVC i = c := by
        unfold Conn.disposeVC
        rw [hfind]
        dsimp only
        rw [if_pos hdis]
      rw [h1, h1]
    · have hh : (c.disposeVC i).handles = markDisposed c.handles i := by
        unfold Conn.disposeVC
        rw [hfind]
        dsimp only
        rw [if_neg hdis]
        split
        · rw [scheduleIdleDisconnect_handles]
        · rfl
      have hfind2 : (c.disposeVC i).handles.find? (fun w => w.id = i) =
          some { v0 with disposed := true, subscribed := false,
                         msg := v0.msg.complete } := by
        rw [hh, find?_markDisposed, hfind]
        rfl
      generalize hgen : c.disposeVC i = r at hfind2 ⊢
      unfold Conn.disposeVC
      rw [hfind2]
      dsimp only
      rw [if_pos rfl]

/-- C9: disposing a live handle detaches it from the connector message
stream, completes its own stream, removes it from the live set so that
activeVirtualConnections drops by exactly one, leaves every other handle
untouched, lets later emissions bypass it, and any further dispose call
changes nothing. -/
theorem c9_vc_dispose_idempotent (c : Conn) (i : Nat)
    (hnd : (c.handles.map VirtualConn.id).Nodup)
    (hv : ∃ v ∈ c.handles, v.id = i ∧ v.disposed = false) :
    (c.disposeVC i).liveCount + 1 = c.liveCount
    ∧ (∀ w ∈ (c.disposeVC i).handles, w.id = i →
        w.disposed = true ∧ w.subscribed = false ∧ w.msg.stopped = true)
    ∧ (∀ w ∈ c.handles, w.id ≠ i → w ∈ (c.disposeVC i).handles)
    ∧ (∀ (m : Nat), c.messageS.stopped = false →
        ∀ w ∈ ((c.disposeVC i).emitMessage m).handles, w.id = i →
          w ∈ (c.disposeVC i).handles)
    ∧ (c.disposeVC i).disposeVC i = c.disposeVC i := by
  have hmark := disposeVC_marks c i hnd hv
  have hmarked : ∀ w ∈ (c.disposeVC i).handles, w.id = i →
      w.disposed = true ∧ w.subscribed = false ∧ w.msg.stopped = true := by
    intro w hw hwi
    rw [hmark] at hw
    unfold markDisposed at hw
    rcases List.mem_map.mp hw with ⟨w0, hw0, hmap⟩
    by_cases h0 : w0.id = i
    · rw [if_pos h0] at hmap
      rw [← hmap]
      exact ⟨rfl, rfl, rfl⟩
    · rw [if_neg h0] at hmap
      rw [← hmap] at hwi
      exact absurd hwi h0
  refine ⟨?_, hmarked, ?_, ?_, disposeVC_idem c i⟩
  · show ((c.disposeVC i).handles.filter (fun v => !v.disposed)).length + 1 = _
    rw [hmark]
    exact liveCount_markDisposed c.handles i hnd hv
  · intro w hw hwi
    rw [hmark]
    unfold markDisposed
    refine List.mem_map.mpr ⟨w, hw, ?_⟩
    rw [if_neg hwi]
  · intro m hm w hw hwi
    have hms : (c.disposeVC i).messageS = c.messageS :=
      (disposeVC_frame c i).2.2.1
    unfold Conn.emitMessage at hw
    dsimp only at hw
    rw [hms] at hw
    rw [if_neg (by simp [hm])] at hw
    rcases List.mem_map.mp hw with ⟨w0, hw0, hmap⟩
    by_cases hsub : w0.subscribed = true
    · exfalso
      have hw0i : w0.id = i := by
        rw [← hmap] at hwi
        by_cases h0 : w0.subscribed = true
        · rw [if_pos h0] at hwi
          exact hwi
        · exact absurd hsub h0
      exact absurd hsub (by simp [(hmarked w0 hw0 hw0i).2.1])
    · rw [if_neg hsub] at hmap
      rw [← hmap]
      exact hw0

/-- The healthy connector with two live handles. -/
def twoConn : Conn := { baseConn with handles := [newVC 0, newVC 1] }

/-- Witness for C9 at a concrete connector: disposing one of two live
handles drops the live count from two to one, and disposing it again
changes nothing. -/
theorem c9_vc_dispose_idempotent_witness :
    (twoConn.handles.map VirtualConn.id).Nodup ∧
    (∃ v ∈ twoConn.handles, v.id = 0 ∧ v.disposed = false) ∧
    (twoConn.disposeVC 0).liveCount + 1 = twoConn.liveCount ∧
    (twoConn.disposeVC 0).disposeVC 0 = twoConn.disposeVC 0 := by
  have h := c9_vc_dispose_idempotent twoConn 0 (by decide)
    ⟨newVC 0, by decide, rfl, rfl⟩
  exact ⟨by decide, ⟨newVC 0, by decide, rfl, rfl⟩, h.1, h.2.2.2.2⟩

end WSC
